import Mathlib

/-!
Shallow embedding of `src/bookstore_manger.py` (a single-store bookshop
point-of-sale ledger backed by SQLite).

The three relations (`member`, `book`, `sale`) become lists of records; the
shared connection's database becomes an explicit `DB` value threaded through
the operations.  SQLite `INTEGER` columns hold Python unbounded integers in
this program, so numeric fields are `Int` (`sid`, an `AUTOINCREMENT` key, is
`Nat`).  Each interactive operation becomes a pure function from the current
`DB` and the raw input strings to the new `DB` plus an outcome; outcomes are
inductive types carrying the data the printed message carries, and a render
function reproduces the literal message strings.  The one persistence step the
source guards with try/rollback (`add_sale`) takes an extra `persistFail`
flag standing for "some `sqlite3.Error` was raised inside the atomic step".
-/

namespace Bookstore

/-- A row of the `member` table: `mid TEXT PRIMARY KEY, mname, mphone, memail`. -/
structure Member where
  mid : String
  mname : String
  mphone : String
  memail : Option String
deriving Repr, DecidableEq

/-- A row of the `book` table: `bid TEXT PRIMARY KEY, btitle, bprice INTEGER, bstock INTEGER`. -/
structure Book where
  bid : String
  btitle : String
  bprice : Int
  bstock : Int
deriving Repr, DecidableEq

/-- A row of the `sale` table:
`sid INTEGER PRIMARY KEY AUTOINCREMENT, sdate, mid, bid, sqty, sdiscount, stotal`. -/
structure Sale where
  sid : Nat
  sdate : String
  mid : String
  bid : String
  sqty : Int
  sdiscount : Int
  stotal : Int
deriving Repr, DecidableEq

/-- The persisted database state.  `nextSid` models the `AUTOINCREMENT`
counter for `sale.sid`. -/
structure DB where
  members : List Member
  books : List Book
  sales : List Sale
  nextSid : Nat
deriving Repr, DecidableEq

/-- `SELECT * FROM member WHERE mid = ?` followed by `fetchone()`:
first row with the given key (the `PRIMARY KEY` constraint makes it unique). -/
def findMember (db : DB) (mid : String) : Option Member :=
  db.members.find? (fun m => m.mid = mid)

/-- `SELECT ... FROM book WHERE bid = ?` followed by `fetchone()`. -/
def findBook (db : DB) (bid : String) : Option Book :=
  db.books.find? (fun b => b.bid = bid)

/-- `SELECT ... FROM sale WHERE sid = ?` followed by `fetchone()`. -/
def findSale (db : DB) (sid : Nat) : Option Sale :=
  db.sales.find? (fun s => s.sid = sid)

/-- Value of a non-empty all-ASCII-digit character list. -/
def digitsVal (cs : List Char) : Option Nat :=
  if cs ≠ [] ∧ cs.all Char.isDigit then
    some (cs.foldl (fun a c => a * 10 + (c.toNat - 48)) 0)
  else none

/-- ASCII whitespace, as stripped by Python's `int()` and `str.strip()`
(those also strip other Unicode whitespace; no claim exercises it). -/
def pyWs (c : Char) : Bool :=
  c = ' ' ∨ c = '\t' ∨ c = '\n' ∨ c = '\r' ∨ c = '\x0b' ∨ c = '\x0c'

/-- Strip leading and trailing whitespace from a character list. -/
def stripWs (cs : List Char) : List Char :=
  ((cs.dropWhile pyWs).reverse.dropWhile pyWs).reverse

/-- Python's `int(s)` on a string: strip surrounding whitespace, an optional
single `+`/`-` sign, then a non-empty run of decimal digits; anything else
raises `ValueError`, modelled as `none`.  (CPython additionally accepts
underscore digit separators and non-ASCII decimal digits; no claim exercises
those inputs.) -/
def pyInt (s : String) : Option Int :=
  match stripWs s.toList with
  | '+' :: rest => (digitsVal rest).map Int.ofNat
  | '-' :: rest => (digitsVal rest).map (fun n => -(n : Int))
  | cs => (digitsVal cs).map Int.ofNat

/-- `sdate.count('-')`: number of occurrences of the one-character substring. -/
def countDash (s : String) : Nat :=
  (s.toList.filter (fun c => c = '-')).length

/-- Outcome of `add_sale`, one constructor per distinct returned message.
The source returns `(bool, str)`; constructors carry the data interpolated
into the f-strings. -/
inductive AddOutcome where
  | errDate            -- 日期格式應為 YYYY-MM-DD
  | errQtyNotPos       -- 數量必須為正整數
  | errQtyNotInt       -- 數量必須為整數
  | errDiscNeg         -- 折扣金額不得為負
  | errDiscNotInt      -- 折扣金額必須為整數
  | errNoMember        -- 會員編號不存在
  | errNoBook          -- 書籍編號不存在
  | errStock (bstock : Int)   -- 庫存不足 (現有庫存: {bstock})
  | errPersist         -- 新增銷售記錄失敗，交易已回復
  | ok (stotal : Int)  -- 銷售記錄已新增！(銷售總額: {stotal})
deriving Repr, DecidableEq

/-- The literal message string `add_sale` returns for each outcome (thousands
separators of `:,` formatting are not reproduced; no claim is about them). -/
def AddOutcome.text : AddOutcome → String
  | .errDate => "=> 錯誤：日期格式應為 YYYY-MM-DD"
  | .errQtyNotPos => "=> 錯誤：數量必須為正整數"
  | .errQtyNotInt => "=> 錯誤：數量必須為整數"
  | .errDiscNeg => "=> 錯誤：折扣金額不得為負"
  | .errDiscNotInt => "=> 錯誤：折扣金額必須為整數"
  | .errNoMember => "=> 錯誤：會員編號不存在"
  | .errNoBook => "=> 錯誤：書籍編號不存在"
  | .errStock bstock => "=> 錯誤：庫存不足 (現有庫存: " ++ (toString bstock ++ ")")
  | .errPersist => "=> 錯誤：新增銷售記錄失敗，交易已回復"
  | .ok stotal => "=> 銷售記錄已新增！(銷售總額: " ++ (toString stotal ++ ")")

/-- The boolean the source pairs with the message: `True` only on success. -/
def AddOutcome.success : AddOutcome → Bool
  | .ok _ => true
  | _ => false

/-- The committed effect of the atomic step of `add_sale`: the `INSERT INTO
sale` (the new row takes the autoincrement key) and the
`UPDATE book SET bstock = bstock - ? WHERE bid = ?` (which touches every row
matching `bid`; the primary key makes that a single row). -/
def commitAdd (db : DB) (sdate mid bid : String) (sqty sdiscount stotal : Int) : DB :=
  { db with
    sales := db.sales ++ [⟨db.nextSid, sdate, mid, bid, sqty, sdiscount, stotal⟩]
    books := db.books.map (fun b => if b.bid = bid then { b with bstock := b.bstock - sqty } else b)
    nextSid := db.nextSid + 1 }

/-- `add_sale(conn)`: validates the five raw inputs in source order (date
shape, quantity, discount, member, book, stock), computes
`stotal = bprice * sqty - sdiscount`, and runs the insert + stock decrement
as one transaction.  `persistFail` stands for an `sqlite3.Error` raised
inside that transaction: the source then rolls back, leaving `db` unchanged. -/
def add_sale (db : DB) (persistFail : Bool)
    (sdate mid bid sqtyS sdiscountS : String) : DB × AddOutcome :=
  if ¬ (sdate.length = 10 ∧ countDash sdate = 2) then (db, .errDate)
  else
    match pyInt sqtyS with
    | none => (db, .errQtyNotInt)
    | some sqty =>
      if sqty ≤ 0 then (db, .errQtyNotPos)
      else
        match pyInt sdiscountS with
        | none => (db, .errDiscNotInt)
        | some sdiscount =>
          if sdiscount < 0 then (db, .errDiscNeg)
          else if (findMember db mid).isNone then (db, .errNoMember)
          else
            match findBook db bid with
            | none => (db, .errNoBook)
            | some b =>
              if b.bstock < sqty then (db, .errStock b.bstock)
              else
                let stotal := b.bprice * sqty - sdiscount
                if persistFail then (db, .errPersist)
                else (commitAdd db sdate mid bid sqty sdiscount stotal, .ok stotal)

/-- The database state seeded by `initialize_db` on a fresh file (the
`INSERT OR IGNORE` / `WHERE NOT EXISTS` seed rows; `nextSid = 5` after the
four seeded sales). -/
def seedDB : DB where
  members :=
    [⟨"M001", "Alice", "0912-345678", some "alice@example.com"⟩,
     ⟨"M002", "Bob", "0923-456789", some "bob@example.com"⟩,
     ⟨"M003", "Cathy", "0934-567890", some "cathy@example.com"⟩]
  books :=
    [⟨"B001", "Python Programming", 600, 50⟩,
     ⟨"B002", "Data Science Basics", 800, 30⟩,
     ⟨"B003", "Machine Learning Guide", 1200, 20⟩]
  sales :=
    [⟨1, "2024-01-15", "M001", "B001", 2, 100, 1100⟩,
     ⟨2, "2024-01-16", "M002", "B002", 1, 50, 750⟩,
     ⟨3, "2024-01-17", "M001", "B003", 3, 200, 3400⟩,
     ⟨4, "2024-01-18", "M003", "B001", 1, 0, 600⟩]
  nextSid := 5

/-- Insert a sale into a list sorted by ascending `sid`. -/
def insertBySid (s : Sale) : List Sale → List Sale
  | [] => [s]
  | t :: ts => if s.sid ≤ t.sid then s :: t :: ts else t :: insertBySid s ts

/-- `ORDER BY s.sid`: sort by ascending sale identifier (insertion sort;
`sid` is a primary key, so ties are impossible and stability is moot). -/
def sortBySid : List Sale → List Sale
  | [] => []
  | s :: ss => insertBySid s (sortBySid ss)

/-- The listing both `update_sale` and `delete_sale` display:
`SELECT s.sid, m.mname, s.sdate FROM sale s JOIN member m ON s.mid = m.mid
ORDER BY s.sid`.  The inner join keeps exactly the sales whose member row
exists (`mid` is the member primary key); we keep the whole `Sale` record,
the selection step below only uses its `sid`. -/
def saleListing (db : DB) : List Sale :=
  sortBySid (db.sales.filter (fun s => (findMember db s.mid).isSome))

/-- Python exception classes relevant to this program's handlers. -/
inductive PyExc where
  | typeError          -- e.g. subscripting the `None` of an empty fetchone()
  | valueError
  | operationalError   -- sqlite3.OperationalError
  | databaseError      -- sqlite3.DatabaseError
deriving Repr, DecidableEq

/-- Outcome of `update_sale` (the source prints and returns `None`; one
constructor per distinct printed message, plus `raised` for an exception that
escapes the function, which has no top-level handler). -/
inductive UpdOutcome where
  | noSales            -- 沒有可更新的銷售記錄
  | cancel             -- blank input: return silently
  | errRange           -- 請輸入有效的選項
  | errNotNum          -- 請輸入有效的數字
  | errDiscNeg         -- 折扣金額不得為負
  | errDiscNotInt      -- 折扣金額必須為整數
  | raised (e : PyExc) -- uncaught exception propagating out of update_sale
  | ok (sid : Nat) (stotal : Int)  -- 銷售編號 {sid} 已更新！(銷售總額: {stotal})
deriving Repr, DecidableEq

/-- `update_sale(conn)`: list the sales, select one by 1-based position
(blank cancels, bad input is rejected), read a new discount, re-fetch the
sale's `bid, sqty` and the book's current `bprice`, recompute the total and
write `sdiscount, stotal` back to that sale.

The two re-fetches use `fetchone()` and subscript the result without a
`None` check; if the row is absent the Python raises `TypeError`
(`'NoneType' object is not subscriptable`), modelled as `raised .typeError`
with the state unchanged (the exception fires before the `UPDATE`). -/
def update_sale (db : DB) (choice discS : String) : DB × UpdOutcome :=
  let sales := saleListing db
  if sales = [] then (db, .noSales)
  else if stripWs choice.toList = [] then (db, .cancel)
  else
    match pyInt choice with
    | none => (db, .errNotNum)
    | some c =>
      if c - 1 < 0 then (db, .errRange)
      else
        match sales.get? (c - 1).toNat with
        | none => (db, .errRange)
        | some sel =>
          match pyInt discS with
          | none => (db, .errDiscNotInt)
          | some d =>
            if d < 0 then (db, .errDiscNeg)
            else
              match findSale db sel.sid with
              | none => (db, .raised .typeError)
              | some srow =>
                match findBook db srow.bid with
                | none => (db, .raised .typeError)
                | some bk =>
                  let stotal := bk.bprice * srow.sqty - d
                  ({ db with
                      sales := db.sales.map (fun t =>
                        if t.sid = sel.sid then { t with sdiscount := d, stotal := stotal } else t) },
                   .ok sel.sid stotal)

/-- Outcome of `delete_sale` (one constructor per distinct printed message;
the source uses the same wording for out-of-range and non-numeric input,
they are distinct constructors here as they are distinct `print` sites). -/
inductive DelOutcome where
  | noSales            -- 沒有可刪除的銷售記錄
  | cancel             -- blank input: return silently
  | errRange           -- 請輸入有效的數字 (out-of-range branch)
  | errNotNum          -- 請輸入有效的數字 (ValueError branch)
  | ok (sid : Nat)     -- 銷售編號 {sid} 已刪除
deriving Repr, DecidableEq

/-- `delete_sale(conn)`: same listing and selection as `update_sale`, then
`DELETE FROM sale WHERE sid = ?` and commit. -/
def delete_sale (db : DB) (choice : String) : DB × DelOutcome :=
  let sales := saleListing db
  if sales = [] then (db, .noSales)
  else if stripWs choice.toList = [] then (db, .cancel)
  else
    match pyInt choice with
    | none => (db, .errNotNum)
    | some c =>
      if c - 1 < 0 then (db, .errRange)
      else
        match sales.get? (c - 1).toNat with
        | none => (db, .errRange)
        | some sel =>
          ({ db with sales := db.sales.filter (fun t => ¬ t.sid = sel.sid) }, .ok sel.sid)

/-- One display block of the sales report. -/
structure ReportRow where
  sid : Nat
  sdate : String
  mname : String
  btitle : String
  bprice : Int
  sqty : Int
  sdiscount : Int
  stotal : Int
deriving Repr, DecidableEq

/-- `show_sales()`: the read-only report join
`SELECT ... FROM sale s JOIN member m ON s.mid = m.mid JOIN book b ON
s.bid = b.bid ORDER BY s.sid`.  No mutation. -/
def show_sales (db : DB) : List ReportRow :=
  (sortBySid db.sales).filterMap (fun s =>
    match findMember db s.mid, findBook db s.bid with
    | some m, some b =>
        some ⟨s.sid, s.sdate, m.mname, b.btitle, b.bprice, s.sqty, s.sdiscount, s.stotal⟩
    | _, _ => none)

/-- Which exception classes the `while True` menu loop's handlers catch:
`except ValueError`, `except sqlite3.OperationalError`,
`except sqlite3.DatabaseError` — each prints a message with the underlying
error and continues the loop.  Anything else propagates and kills the
process. -/
def loopCatches : PyExc → Bool
  | .valueError => true
  | .operationalError => true
  | .databaseError => true
  | .typeError => false

/-- One console interaction with the menu: the choice line plus whatever
further input lines the chosen operation consumes.  `add` also carries the
`persistFail` oracle of `add_sale`'s transaction; `exit` is choice `'5'` or
the empty string; `other` is any other choice line. -/
inductive MenuInput where
  | add (persistFail : Bool) (sdate mid bid sqtyS sdiscS : String)
  | report
  | update (choice discS : String)
  | delete (choice : String)
  | exit
  | other (s : String)

/-- Result of one pass of the menu loop body. -/
inductive StepResult where
  | next (db : DB)        -- loop continues with this state
  | exited (db : DB)      -- `break` via the exit choice
  | crashed (e : PyExc) (db : DB)  -- uncaught exception terminates the process
deriving Repr, DecidableEq

/-- One iteration of the `while True` menu loop: dispatch on the choice,
run the operation, print its message.  Only exceptions of the classes in
`loopCatches` are caught (and reported with their message); `add_sale`
catches everything itself (`except Exception`), `show_sales` and
`delete_sale` raise at most database errors, `update_sale` can raise an
uncaught `TypeError`. -/
def menuStep (db : DB) : MenuInput → StepResult
  | .add pf sdate mid bid qS dS => .next (add_sale db pf sdate mid bid qS dS).1
  | .report => .next db
  | .update choice discS =>
      match update_sale db choice discS with
      | (db2, .raised e) => if loopCatches e then .next db2 else .crashed e db2
      | (db2, _) => .next db2
  | .delete choice => .next (delete_sale db choice).1
  | .exit => .exited db
  | .other _ => .next db

/-- How a whole console session ends. -/
inductive RunResult where
  | exited (db : DB)             -- the explicit exit choice was taken
  | crashed (e : PyExc) (db : DB)
  | inputExhausted (db : DB)     -- modelled input list ran out
deriving Repr, DecidableEq

/-- The menu loop over a list of console interactions. -/
def runMenu (db : DB) : List MenuInput → RunResult
  | [] => .inputExhausted db
  | ev :: evs =>
      match menuStep db ev with
      | .next db2 => runMenu db2 evs
      | .exited db2 => .exited db2
      | .crashed e db2 => .crashed e db2

/-! ### Basic facts about the embedded operations -/

lemma mem_insertBySid {a s : Sale} : ∀ {l : List Sale}, a ∈ insertBySid s l ↔ a = s ∨ a ∈ l
  | [] => by simp [insertBySid]
  | t :: ts => by
    by_cases h : s.sid ≤ t.sid
    · simp [insertBySid, h]
    · simp only [insertBySid, if_neg h, List.mem_cons, mem_insertBySid (l := ts)]
      tauto

lemma perm_insertBySid (s : Sale) : ∀ l : List Sale, List.Perm (insertBySid s l) (s :: l)
  | [] => by simp [insertBySid]
  | t :: ts => by
    by_cases h : s.sid ≤ t.sid
    · simp [insertBySid, h]
    · simpa [insertBySid, if_neg h] using
        ((perm_insertBySid s ts).cons t).trans (List.Perm.swap s t ts)

lemma perm_sortBySid : ∀ l : List Sale, List.Perm (sortBySid l) l
  | [] => by simp [sortBySid]
  | s :: ss => by
    simpa [sortBySid] using (perm_insertBySid s (sortBySid ss)).trans ((perm_sortBySid ss).cons s)

lemma mem_sortBySid {a : Sale} {l : List Sale} : a ∈ sortBySid l ↔ a ∈ l :=
  (perm_sortBySid l).mem_iff

lemma sorted_insertBySid {s : Sale} : ∀ {l : List Sale},
    List.Pairwise (fun a b : Sale => a.sid ≤ b.sid) l →
    List.Pairwise (fun a b : Sale => a.sid ≤ b.sid) (insertBySid s l)
  | [], _ => by simp [insertBySid]
  | t :: ts, h => by
    rcases List.pairwise_cons.mp h with ⟨ht, hts⟩
    by_cases hle : s.sid ≤ t.sid
    · rw [insertBySid, if_pos hle]
      refine List.pairwise_cons.mpr ⟨?_, h⟩
      intro u hu
      rcases List.mem_cons.mp hu with rfl | hu
      · exact hle
      · exact hle.trans (ht u hu)
    · rw [insertBySid, if_neg hle]
      refine List.pairwise_cons.mpr ⟨?_, sorted_insertBySid hts⟩
      intro u hu
      rcases mem_insertBySid.mp hu with rfl | hu
      · exact Nat.le_of_not_le hle
      · exact ht u hu

lemma sorted_sortBySid : ∀ l : List Sale,
    List.Pairwise (fun a b : Sale => a.sid ≤ b.sid) (sortBySid l)
  | [] => by simp [sortBySid]
  | s :: ss => by
    simpa [sortBySid] using sorted_insertBySid (sorted_sortBySid ss)

lemma mem_saleListing {db : DB} {sel : Sale} (h : sel ∈ saleListing db) :
    sel ∈ db.sales ∧ (findMember db sel.mid).isSome := by
  have := mem_sortBySid.mp h
  simpa [List.mem_filter] using this

/-- Under the `bid` primary-key constraint, any book in the table carrying
the looked-up key is the row `find?` returns. -/
lemma find_book_unique {bid : String} {b0 b : Book} :
    ∀ {books : List Book},
    (books.map Book.bid).Nodup →
    books.find? (fun x => x.bid = bid) = some b0 →
    b ∈ books → b.bid = bid → b = b0 := by
  intro books
  induction books with
  | nil => intro _ hf; simp at hf
  | cons c cs ih =>
    intro hnd hf hb hbid
    obtain ⟨hc, hcs⟩ : (∀ x ∈ cs, ¬ x.bid = c.bid) ∧ (cs.map Book.bid).Nodup := by
      simpa using hnd
    by_cases hcbid : c.bid = bid
    · have hb0 : b0 = c := by
        rw [List.find?_cons_of_pos _ (by simpa using hcbid)] at hf
        exact (Option.some_inj.mp hf).symm
      subst hb0
      rcases List.mem_cons.mp hb with rfl | hbcs
      · rfl
      · exact absurd (hbid.trans hcbid.symm) (hc b hbcs)
    · have hf' : cs.find? (fun x => x.bid = bid) = some b0 := by
        rwa [List.find?_cons_of_neg _ (by simpa using hcbid)] at hf
      rcases List.mem_cons.mp hb with rfl | hbcs
      · exact absurd hbid hcbid
      · exact ih hcs hf' hbcs hbid

/-- A length-preserving rewrite of the rows that keeps the key column intact
does not change whether a key resolves. -/
lemma find_isSome_map_of_key {α : Type} {key : α → String}
    {f : α → α} (hf : ∀ a, key (f a) = key a) (x : String) :
    ∀ l : List α, ((l.map f).find? (fun a => key a = x)).isSome =
      (l.find? (fun a => key a = x)).isSome
  | [] => by simp
  | c :: cs => by
    by_cases hc : key c = x
    · simp [List.find?_cons, hc, hf]
    · simpa [List.find?_cons, hc, hf] using find_isSome_map_of_key hf x cs

lemma length_filter_sid_split (sel : Sale) :
    ∀ l : List Sale, (l.filter (fun u => u.sid = sel.sid)).length +
      (l.filter (fun u => ¬ u.sid = sel.sid)).length = l.length
  | [] => by simp
  | c :: cs => by
    by_cases hc : c.sid = sel.sid <;>
      simp [List.filter_cons, hc, ← length_filter_sid_split sel cs] <;> omega

/-- Under the `sid` primary-key constraint, filtering on an existing key
yields exactly its row. -/
lemma filter_sid_singleton {sel : Sale} :
    ∀ {l : List Sale}, (l.map Sale.sid).Nodup → sel ∈ l →
    l.filter (fun t => t.sid = sel.sid) = [sel] := by
  intro l
  induction l with
  | nil => intro _ h; simp at h
  | cons c cs ih =>
    intro hnd hm
    obtain ⟨hc, hcs⟩ : (∀ x ∈ cs, ¬ x.sid = c.sid) ∧ (cs.map Sale.sid).Nodup := by
      simpa using hnd
    rcases List.mem_cons.mp hm with rfl | hmcs
    · have hnil : cs.filter (fun t => t.sid = sel.sid) = [] := by
        rw [List.filter_eq_nil_iff]
        intro t ht
        simpa using fun h => hc t ht h
      simp [List.filter_cons, hnil]
    · have hcsel : ¬ c.sid = sel.sid := fun h => hc sel hmcs h.symm
      simpa [List.filter_cons, hcsel] using ih hcs hmcs

/-- The `CHECK`-less schema invariant the spec states for `book`:
every stock quantity is non-negative. -/
def stocksNonneg (db : DB) : Prop := ∀ b ∈ db.books, 0 ≤ b.bstock

/-- Referential invariant: every sale's book id resolves in the catalog. -/
def salesBooksExist (db : DB) : Prop := ∀ s ∈ db.sales, (findBook db s.bid).isSome = true

instance (db : DB) : Decidable (stocksNonneg db) :=
  inferInstanceAs (Decidable (∀ b ∈ db.books, 0 ≤ b.bstock))

instance (db : DB) : Decidable (salesBooksExist db) :=
  inferInstanceAs (Decidable (∀ s ∈ db.sales, (findBook db s.bid).isSome = true))

/-- Anatomy of a successful `add_sale` run: every validation passed, the
transaction did not fail, and the returned state is exactly the committed
insert-plus-decrement with `stotal = bprice * sqty - sdiscount`. -/
lemma add_sale_ok_spec {db db' : DB} {pf : Bool} {sdate mid bid qS dS : String} {t : Int}
    (h : add_sale db pf sdate mid bid qS dS = (db', .ok t)) :
    sdate.length = 10 ∧ countDash sdate = 2 ∧ pf = false ∧
    ∃ q d b, pyInt qS = some q ∧ 0 < q ∧ pyInt dS = some d ∧ 0 ≤ d ∧
      (findMember db mid).isSome = true ∧ findBook db bid = some b ∧ q ≤ b.bstock ∧
      t = b.bprice * q - d ∧ db' = commitAdd db sdate mid bid q d t := by
  unfold add_sale at h
  split at h
  · simp at h
  next hdate =>
  rw [not_not] at hdate
  obtain ⟨hlen, hcnt⟩ := hdate
  split at h
  · simp at h
  next q hq =>
  split at h
  · simp at h
  next hqpos =>
  split at h
  · simp at h
  next d hd =>
  split at h
  · simp at h
  next hdneg =>
  split at h
  · simp at h
  next hmem =>
  split at h
  · simp at h
  next b hb =>
  split at h
  · simp at h
  next hstock =>
  split at h
  · simp at h
  next hpf =>
  simp only [Prod.mk.injEq, AddOutcome.ok.injEq] at h
  obtain ⟨hdb, ht⟩ := h
  refine ⟨hlen, hcnt, by simpa using hpf, q, d, b, hq, by omega, hd, by omega,
    by simp only [Option.isSome_iff_ne_none]; simpa using hmem, hb, by omega, ht.symm, ?_⟩
  rw [← hdb, ← ht]

/-- Any failing `add_sale` run leaves the database untouched. -/
lemma add_sale_fail_state (db : DB) (pf : Bool) (sdate mid bid qS dS : String) :
    (add_sale db pf sdate mid bid qS dS).1 = db ∨
    ∃ t, (add_sale db pf sdate mid bid qS dS).2 = .ok t := by
  unfold add_sale
  repeat' split
  all_goals simp

/-- Anatomy of a successful `update_sale` run: a listed sale was selected,
the new discount parsed as a non-negative integer, the sale row and its
book's current price were re-fetched, and exactly that sale's `sdiscount`
and `stotal` were rewritten. -/
lemma update_sale_ok_spec {db db' : DB} {choice dS : String} {sid : Nat} {t : Int}
    (h : update_sale db choice dS = (db', .ok sid t)) :
    ∃ c sel srow bk d,
      pyInt choice = some c ∧ ¬ c - 1 < 0 ∧
      (saleListing db).get? (c - 1).toNat = some sel ∧ sid = sel.sid ∧
      pyInt dS = some d ∧ 0 ≤ d ∧
      findSale db sel.sid = some srow ∧ findBook db srow.bid = some bk ∧
      t = bk.bprice * srow.sqty - d ∧
      db' = { db with sales := db.sales.map (fun u =>
        if u.sid = sel.sid then { u with sdiscount := d, stotal := t } else u) } := by
  unfold update_sale at h
  dsimp only at h
  by_cases hE : saleListing db = []
  · rw [if_pos hE] at h; simp at h
  rw [if_neg hE] at h
  by_cases hB : stripWs choice.toList = []
  · rw [if_pos hB] at h; simp at h
  rw [if_neg hB] at h
  cases hc : pyInt choice with
  | none => simp only [hc] at h; simp at h
  | some c =>
  simp only [hc] at h
  by_cases hcpos : c - 1 < 0
  · rw [if_pos hcpos] at h; simp at h
  rw [if_neg hcpos] at h
  cases hsel : (saleListing db).get? (c - 1).toNat with
  | none => simp only [hsel] at h; simp at h
  | some sel =>
  simp only [hsel] at h
  cases hd : pyInt dS with
  | none => simp only [hd] at h; simp at h
  | some d =>
  simp only [hd] at h
  by_cases hdneg : d < 0
  · rw [if_pos hdneg] at h; simp at h
  rw [if_neg hdneg] at h
  cases hsrow : findSale db sel.sid with
  | none => simp only [hsrow] at h; simp at h
  | some srow =>
  simp only [hsrow] at h
  cases hbk : findBook db srow.bid with
  | none => simp only [hbk] at h; simp at h
  | some bk =>
  simp only [hbk] at h
  simp only [Prod.mk.injEq, UpdOutcome.ok.injEq] at h
  obtain ⟨hdb, hsid, ht⟩ := h
  refine ⟨c, sel, srow, bk, d, rfl, hcpos, hsel, hsid.symm, rfl, by omega, hsrow, hbk,
    ht.symm, ?_⟩
  rw [← hdb, ← ht]

/-- Any `update_sale` run that does not report success leaves the database
untouched (in particular: cancel, every validation failure, and the
uncaught-exception path, which fires before the `UPDATE` statement). -/
lemma update_sale_state (db : DB) (choice dS : String) :
    (update_sale db choice dS).1 = db ∨
    ∃ sid t, (update_sale db choice dS).2 = .ok sid t := by
  unfold update_sale
  dsimp only
  by_cases hE : saleListing db = []
  · rw [if_pos hE]; left; rfl
  rw [if_neg hE]
  by_cases hB : stripWs choice.toList = []
  · rw [if_pos hB]; left; rfl
  rw [if_neg hB]
  cases hc : pyInt choice with
  | none => left; rfl
  | some c =>
  dsimp only
  by_cases hcpos : c - 1 < 0
  · rw [if_pos hcpos]; left; rfl
  rw [if_neg hcpos]
  cases hsel : (saleListing db).get? (c - 1).toNat with
  | none => left; rfl
  | some sel =>
  dsimp only
  cases hd : pyInt dS with
  | none => left; rfl
  | some d =>
  dsimp only
  by_cases hdneg : d < 0
  · rw [if_pos hdneg]; left; rfl
  rw [if_neg hdneg]
  cases hsrow : findSale db sel.sid with
  | none => left; rfl
  | some srow =>
  dsimp only
  cases hbk : findBook db srow.bid with
  | none => left; rfl
  | some bk =>
  right
  exact ⟨sel.sid, bk.bprice * srow.sqty - d, rfl⟩

/-- Anatomy of a successful `delete_sale` run: a listed sale was selected and
exactly the rows bearing its `sid` were removed. -/
lemma delete_sale_ok_spec {db db' : DB} {choice : String} {sid : Nat}
    (h : delete_sale db choice = (db', .ok sid)) :
    ∃ c sel,
      pyInt choice = some c ∧ ¬ c - 1 < 0 ∧
      (saleListing db).get? (c - 1).toNat = some sel ∧ sid = sel.sid ∧
      db' = { db with sales := db.sales.filter (fun u => ¬ u.sid = sel.sid) } := by
  unfold delete_sale at h
  dsimp only at h
  by_cases hE : saleListing db = []
  · rw [if_pos hE] at h; simp at h
  rw [if_neg hE] at h
  by_cases hB : stripWs choice.toList = []
  · rw [if_pos hB] at h; simp at h
  rw [if_neg hB] at h
  cases hc : pyInt choice with
  | none => simp only [hc] at h; simp at h
  | some c =>
  simp only [hc] at h
  by_cases hcpos : c - 1 < 0
  · rw [if_pos hcpos] at h; simp at h
  rw [if_neg hcpos] at h
  cases hsel : (saleListing db).get? (c - 1).toNat with
  | none => simp only [hsel] at h; simp at h
  | some sel =>
  simp only [hsel] at h
  simp only [Prod.mk.injEq, DelOutcome.ok.injEq] at h
  obtain ⟨hdb, hsid⟩ := h
  exact ⟨c, sel, rfl, hcpos, hsel, hsid.symm, hdb.symm⟩

/-- Any `delete_sale` run that does not report success leaves the database
untouched. -/
lemma delete_sale_state (db : DB) (choice : String) :
    (delete_sale db choice).1 = db ∨
    ∃ sid, (delete_sale db choice).2 = .ok sid := by
  unfold delete_sale
  dsimp only
  by_cases hE : saleListing db = []
  · rw [if_pos hE]; left; rfl
  rw [if_neg hE]
  by_cases hB : stripWs choice.toList = []
  · rw [if_pos hB]; left; rfl
  rw [if_neg hB]
  cases hc : pyInt choice with
  | none => left; rfl
  | some c =>
  dsimp only
  by_cases hcpos : c - 1 < 0
  · rw [if_pos hcpos]; left; rfl
  rw [if_neg hcpos]
  cases hsel : (saleListing db).get? (c - 1).toNat with
  | none => left; rfl
  | some sel =>
  right
  exact ⟨sel.sid, rfl⟩

lemma findBook_isSome_congr {db db' : DB} (h : db'.books = db.books) (x : String) :
    (findBook db' x).isSome = (findBook db x).isSome := by
  simp [findBook, h]

/-- The stock decrement of `commitAdd` rewrites rows without touching the
`bid` key column. -/
lemma commitAdd_bid_kept (bid : String) (sqty : Int) (b : Book) :
    (if b.bid = bid then { b with bstock := b.bstock - sqty } else b).bid = b.bid := by
  split <;> rfl

lemma add_sale_salesBooksExist {db : DB} (hinv : salesBooksExist db)
    (pf : Bool) (sdate mid bid qS dS : String) :
    salesBooksExist (add_sale db pf sdate mid bid qS dS).1 := by
  rcases hres : add_sale db pf sdate mid bid qS dS with ⟨db', out⟩
  rcases add_sale_fail_state db pf sdate mid bid qS dS with hsame | ⟨t, hok⟩
  · rw [hres] at hsame
    dsimp at hsame ⊢
    rwa [hsame]
  · rw [hres] at hok
    dsimp at hok ⊢
    subst hok
    obtain ⟨-, -, -, q, d, b, -, -, -, -, -, hb, -, -, hdb⟩ := add_sale_ok_spec hres
    subst hdb
    intro s hs
    have hbooks : ∀ x, (findBook (commitAdd db sdate mid bid q d t) x).isSome =
        (findBook db x).isSome := by
      intro x
      show (((db.books.map _).find? _).isSome = _)
      rw [find_isSome_map_of_key (commitAdd_bid_kept bid q) x db.books]
      rfl
    rw [hbooks]
    have hs2 : s ∈ db.sales ∨
        s = ⟨db.nextSid, sdate, mid, bid, q, d, t⟩ := by
      simpa [commitAdd] using hs
    rcases hs2 with hold | hnew
    · exact hinv s hold
    · have : s.bid = bid := by rw [hnew]
      rw [this, hb]
      rfl

lemma update_sale_salesBooksExist {db : DB} (hinv : salesBooksExist db)
    (choice dS : String) :
    salesBooksExist (update_sale db choice dS).1 := by
  rcases hres : update_sale db choice dS with ⟨db', out⟩
  rcases update_sale_state db choice dS with hsame | ⟨sid, t, hok⟩
  · rw [hres] at hsame
    dsimp at hsame ⊢
    rwa [hsame]
  · rw [hres] at hok
    dsimp at hok ⊢
    subst hok
    obtain ⟨c, sel, srow, bk, d, -, -, -, -, -, -, -, -, -, hdb⟩ := update_sale_ok_spec hres
    subst hdb
    intro s hs
    obtain ⟨u, hu, rfl⟩ := List.mem_map.mp hs
    have hbid : (if u.sid = sel.sid then
        { u with sdiscount := d, stotal := t } else u).bid = u.bid := by
      split <;> rfl
    rw [show (findBook _ _) = findBook db u.bid from by rw [hbid]; rfl]
    exact hinv u hu

lemma delete_sale_salesBooksExist {db : DB} (hinv : salesBooksExist db)
    (choice : String) :
    salesBooksExist (delete_sale db choice).1 := by
  rcases hres : delete_sale db choice with ⟨db', out⟩
  rcases delete_sale_state db choice with hsame | ⟨sid, hok⟩
  · rw [hres] at hsame
    dsimp at hsame ⊢
    rwa [hsame]
  · rw [hres] at hok
    dsimp at hok ⊢
    subst hok
    obtain ⟨c, sel, -, -, -, -, hdb⟩ := delete_sale_ok_spec hres
    subst hdb
    intro s hs
    exact hinv s (List.mem_of_mem_filter hs)

/-- Under the sale→book referential invariant, `update_sale` never raises:
both unguarded `fetchone()` subscripts succeed. -/
lemma update_sale_no_raise {db : DB} (hinv : salesBooksExist db) (choice dS : String)
    (e : PyExc) : (update_sale db choice dS).2 ≠ .raised e := by
  unfold update_sale
  dsimp only
  by_cases hE : saleListing db = []
  · rw [if_pos hE]; simp
  rw [if_neg hE]
  by_cases hB : stripWs choice.toList = []
  · rw [if_pos hB]; simp
  rw [if_neg hB]
  cases hc : pyInt choice with
  | none => simp
  | some c =>
  dsimp only
  by_cases hcpos : c - 1 < 0
  · rw [if_pos hcpos]; simp
  rw [if_neg hcpos]
  cases hsel : (saleListing db).get? (c - 1).toNat with
  | none => simp
  | some sel =>
  dsimp only
  cases hd : pyInt dS with
  | none => simp
  | some d =>
  dsimp only
  by_cases hdneg : d < 0
  · rw [if_pos hdneg]; simp
  rw [if_neg hdneg]
  have hselmem : sel ∈ db.sales := (mem_saleListing (List.get?_mem hsel)).1
  cases hsrow : findSale db sel.sid with
  | none =>
    exfalso
    rw [findSale, List.find?_eq_none] at hsrow
    exact hsrow sel hselmem (by simp)
  | some srow =>
  dsimp only
  have hsrow2 : db.sales.find? (fun s => s.sid = sel.sid) = some srow := hsrow
  have hsrowmem : srow ∈ db.sales := List.mem_of_find?_eq_some hsrow2
  cases hbk : findBook db srow.bid with
  | none =>
    exfalso
    have := hinv srow hsrowmem
    rw [hbk] at this
    simp at this
  | some bk =>
  dsimp only
  simp

lemma add_sale_stocksNonneg {db : DB} (hnn : stocksNonneg db)
    (hnd : (db.books.map Book.bid).Nodup)
    (pf : Bool) (sdate mid bid qS dS : String) :
    stocksNonneg (add_sale db pf sdate mid bid qS dS).1 := by
  rcases hres : add_sale db pf sdate mid bid qS dS with ⟨db2, out⟩
  rcases add_sale_fail_state db pf sdate mid bid qS dS with hsame | ⟨t, hok⟩
  · rw [hres] at hsame
    dsimp at hsame ⊢
    rwa [hsame]
  · rw [hres] at hok
    dsimp at hok ⊢
    subst hok
    obtain ⟨-, -, -, q, d, b, hq, hqpos, hd, -, -, hb, hstock, -, hdb⟩ :=
      add_sale_ok_spec hres
    subst hdb
    intro bk hbk
    have hbk2 : bk ∈ db.books.map
        (fun x => if x.bid = bid then { x with bstock := x.bstock - q } else x) := by
      simpa [commitAdd] using hbk
    obtain ⟨b0, hb0, rfl⟩ := List.mem_map.mp hbk2
    by_cases hbid : b0.bid = bid
    · have hb2 : db.books.find? (fun x => x.bid = bid) = some b := hb
      have hb0b : b0 = b := find_book_unique hnd hb2 hb0 hbid
      rw [if_pos hbid, hb0b]
      dsimp
      omega
    · rw [if_neg hbid]
      exact hnn b0 hb0

lemma update_sale_stocksNonneg {db : DB} (hnn : stocksNonneg db) (choice dS : String) :
    stocksNonneg (update_sale db choice dS).1 := by
  rcases hres : update_sale db choice dS with ⟨db2, out⟩
  rcases update_sale_state db choice dS with hsame | ⟨sid, t, hok⟩
  · rw [hres] at hsame
    dsimp at hsame ⊢
    rwa [hsame]
  · rw [hres] at hok
    dsimp at hok ⊢
    subst hok
    obtain ⟨c, sel, srow, bk, d, -, -, -, -, -, -, -, -, -, hdb⟩ := update_sale_ok_spec hres
    subst hdb
    exact hnn

lemma delete_sale_stocksNonneg {db : DB} (hnn : stocksNonneg db) (choice : String) :
    stocksNonneg (delete_sale db choice).1 := by
  rcases hres : delete_sale db choice with ⟨db2, out⟩
  rcases delete_sale_state db choice with hsame | ⟨sid, hok⟩
  · rw [hres] at hsame
    dsimp at hsame ⊢
    rwa [hsame]
  · rw [hres] at hok
    dsimp at hok ⊢
    subst hok
    obtain ⟨c, sel, -, -, -, -, hdb⟩ := delete_sale_ok_spec hres
    subst hdb
    exact hnn

lemma menuStep_not_crashed {db : DB} (hinv : salesBooksExist db) (ev : MenuInput)
    (e : PyExc) (db2 : DB) : menuStep db ev ≠ .crashed e db2 := by
  cases ev with
  | add pf sdate mid bid qS dS => simp [menuStep]
  | report => simp [menuStep]
  | update choice dS =>
    have hnr := update_sale_no_raise hinv choice dS
    rcases hres : update_sale db choice dS with ⟨db1, out⟩
    cases out with
    | raised e2 => exact absurd (congrArg Prod.snd hres) (hnr e2)
    | noSales => simp [menuStep, hres]
    | cancel => simp [menuStep, hres]
    | errRange => simp [menuStep, hres]
    | errNotNum => simp [menuStep, hres]
    | errDiscNeg => simp [menuStep, hres]
    | errDiscNotInt => simp [menuStep, hres]
    | ok sid t => simp [menuStep, hres]
  | delete choice => simp [menuStep]
  | exit => simp [menuStep]
  | other s => simp [menuStep]

lemma menuStep_next_inv {db db2 : DB} (hinv : salesBooksExist db) {ev : MenuInput}
    (h : menuStep db ev = .next db2) : salesBooksExist db2 := by
  cases ev with
  | add pf sdate mid bid qS dS =>
    simp only [menuStep, StepResult.next.injEq] at h
    rw [← h]
    exact add_sale_salesBooksExist hinv pf sdate mid bid qS dS
  | report =>
    simp only [menuStep, StepResult.next.injEq] at h
    rwa [← h]
  | update choice dS =>
    have hpres := update_sale_salesBooksExist hinv choice dS
    have hnr := update_sale_no_raise hinv choice dS
    rcases hres : update_sale db choice dS with ⟨db1, out⟩
    rw [hres] at hpres
    dsimp at hpres
    cases out with
    | raised e2 => exact absurd (congrArg Prod.snd hres) (hnr e2)
    | noSales => simp only [menuStep, hres, StepResult.next.injEq] at h; rwa [← h]
    | cancel => simp only [menuStep, hres, StepResult.next.injEq] at h; rwa [← h]
    | errRange => simp only [menuStep, hres, StepResult.next.injEq] at h; rwa [← h]
    | errNotNum => simp only [menuStep, hres, StepResult.next.injEq] at h; rwa [← h]
    | errDiscNeg => simp only [menuStep, hres, StepResult.next.injEq] at h; rwa [← h]
    | errDiscNotInt => simp only [menuStep, hres, StepResult.next.injEq] at h; rwa [← h]
    | ok sid t => simp only [menuStep, hres, StepResult.next.injEq] at h; rwa [← h]
  | delete choice =>
    simp only [menuStep, StepResult.next.injEq] at h
    rw [← h]
    exact delete_sale_salesBooksExist hinv choice
  | exit => simp [menuStep] at h
  | other s =>
    simp only [menuStep, StepResult.next.injEq] at h
    rwa [← h]

lemma menuStep_exited_exit {db db2 : DB} {ev : MenuInput}
    (h : menuStep db ev = .exited db2) : ev = .exit := by
  cases ev with
  | exit => rfl
  | add pf sdate mid bid qS dS => simp [menuStep] at h
  | report => simp [menuStep] at h
  | delete choice => simp [menuStep] at h
  | other s => simp [menuStep] at h
  | update choice dS =>
    rcases hres : update_sale db choice dS with ⟨db1, out⟩
    cases out with
    | raised e2 => cases hl : loopCatches e2 <;> simp [menuStep, hres, hl] at h
    | noSales => simp [menuStep, hres] at h
    | cancel => simp [menuStep, hres] at h
    | errRange => simp [menuStep, hres] at h
    | errNotNum => simp [menuStep, hres] at h
    | errDiscNeg => simp [menuStep, hres] at h
    | errDiscNotInt => simp [menuStep, hres] at h
    | ok sid t => simp [menuStep, hres] at h

lemma runMenu_safe : ∀ (evs : List MenuInput) (db : DB), salesBooksExist db →
    (∀ e db2, runMenu db evs ≠ .crashed e db2) ∧
    (∀ db2, runMenu db evs = .exited db2 → MenuInput.exit ∈ evs)
  | [], db, hinv => by
    refine ⟨fun e db2 => by simp [runMenu], fun db2 h => by simp [runMenu] at h⟩
  | ev :: evs, db, hinv => by
    cases hstep : menuStep db ev with
    | next db1 =>
      have hinv1 := menuStep_next_inv hinv hstep
      obtain ⟨hc, he⟩ := runMenu_safe evs db1 hinv1
      refine ⟨fun e db2 => ?_, fun db2 h => ?_⟩
      · simp only [runMenu, hstep]
        exact hc e db2
      · simp only [runMenu, hstep] at h
        exact List.mem_cons_of_mem _ (he db2 h)
    | exited db1 =>
      refine ⟨fun e db2 => ?_, fun db2 h => ?_⟩
      · simp [runMenu, hstep]
      · rw [menuStep_exited_exit hstep]
        exact List.mem_cons_self _ _
    | crashed e1 db1 => exact absurd hstep (menuStep_not_crashed hinv ev e1 db1)

/-- Two strings differ if they already disagree at a position inside the
first summand of an append. -/
lemma ne_of_append_get (p t w : String) (n : Nat) (hlen : n < p.data.length)
    (hp : p.data[n]? ≠ w.data[n]?) : p ++ t ≠ w := by
  intro h
  apply hp
  have h2 : p.data ++ t.data = w.data := by
    rw [← h]
    rfl
  rw [← h2]
  exact (List.getElem?_append_left hlen).symm

/-- The insufficient-stock message differs from every message that does not
open with its prefix, whatever stock figure it carries. -/
lemma errStock_text_ne (s : Int) (w : String)
    (hp : ("=> 錯誤：庫存不足 (現有庫存: " : String).data[6]? ≠ w.data[6]?) :
    (AddOutcome.errStock s).text ≠ w := by
  show ("=> 錯誤：庫存不足 (現有庫存: " ++ (toString s ++ ")") : String) ≠ w
  exact ne_of_append_get _ _ _ 6 (by decide) hp

/-! ### Per-branch evaluation of `add_sale` -/

lemma add_sale_err_date (db : DB) (pf : Bool) (sdate mid bid qS dS : String)
    (h : ¬ (sdate.length = 10 ∧ countDash sdate = 2)) :
    add_sale db pf sdate mid bid qS dS = (db, .errDate) := by
  unfold add_sale
  rw [if_pos h]

lemma add_sale_err_qty_int (db : DB) (pf : Bool) (sdate mid bid qS dS : String)
    (h1 : sdate.length = 10) (h2 : countDash sdate = 2)
    (hq : pyInt qS = none) :
    add_sale db pf sdate mid bid qS dS = (db, .errQtyNotInt) := by
  unfold add_sale
  dsimp only
  rw [if_neg (not_not_intro ⟨h1, h2⟩), hq]

lemma add_sale_err_qty_pos (db : DB) (pf : Bool) (sdate mid bid qS dS : String)
    (q : Int)
    (h1 : sdate.length = 10) (h2 : countDash sdate = 2)
    (hq : pyInt qS = some q) (hqle : q ≤ 0) :
    add_sale db pf sdate mid bid qS dS = (db, .errQtyNotPos) := by
  unfold add_sale
  dsimp only
  rw [if_neg (not_not_intro ⟨h1, h2⟩), hq]
  dsimp only
  rw [if_pos hqle]

lemma add_sale_err_disc_int (db : DB) (pf : Bool) (sdate mid bid qS dS : String)
    (q : Int)
    (h1 : sdate.length = 10) (h2 : countDash sdate = 2)
    (hq : pyInt qS = some q) (hqpos : 0 < q)
    (hd : pyInt dS = none) :
    add_sale db pf sdate mid bid qS dS = (db, .errDiscNotInt) := by
  unfold add_sale
  dsimp only
  rw [if_neg (not_not_intro ⟨h1, h2⟩), hq]
  dsimp only
  rw [if_neg (show ¬ q ≤ 0 by omega), hd]

lemma add_sale_err_disc_neg (db : DB) (pf : Bool) (sdate mid bid qS dS : String)
    (q d : Int)
    (h1 : sdate.length = 10) (h2 : countDash sdate = 2)
    (hq : pyInt qS = some q) (hqpos : 0 < q)
    (hd : pyInt dS = some d) (hdneg : d < 0) :
    add_sale db pf sdate mid bid qS dS = (db, .errDiscNeg) := by
  unfold add_sale
  dsimp only
  rw [if_neg (not_not_intro ⟨h1, h2⟩), hq]
  dsimp only
  rw [if_neg (show ¬ q ≤ 0 by omega), hd]
  dsimp only
  rw [if_pos hdneg]

lemma add_sale_err_member (db : DB) (pf : Bool) (sdate mid bid qS dS : String)
    (q d : Int)
    (h1 : sdate.length = 10) (h2 : countDash sdate = 2)
    (hq : pyInt qS = some q) (hqpos : 0 < q)
    (hd : pyInt dS = some d) (hdnn : 0 ≤ d)
    (hm : findMember db mid = none) :
    add_sale db pf sdate mid bid qS dS = (db, .errNoMember) := by
  unfold add_sale
  dsimp only
  rw [if_neg (not_not_intro ⟨h1, h2⟩), hq]
  dsimp only
  rw [if_neg (show ¬ q ≤ 0 by omega), hd]
  dsimp only
  rw [if_neg (show ¬ d < 0 by omega), hm]
  rw [if_pos (by rfl)]

lemma add_sale_err_book (db : DB) (pf : Bool) (sdate mid bid qS dS : String)
    (q d : Int) (m : Member)
    (h1 : sdate.length = 10) (h2 : countDash sdate = 2)
    (hq : pyInt qS = some q) (hqpos : 0 < q)
    (hd : pyInt dS = some d) (hdnn : 0 ≤ d)
    (hm : findMember db mid = some m)
    (hb : findBook db bid = none) :
    add_sale db pf sdate mid bid qS dS = (db, .errNoBook) := by
  unfold add_sale
  dsimp only
  rw [if_neg (not_not_intro ⟨h1, h2⟩), hq]
  dsimp only
  rw [if_neg (show ¬ q ≤ 0 by omega), hd]
  dsimp only
  rw [if_neg (show ¬ d < 0 by omega), hm]
  rw [if_neg (by simp), hb]

lemma add_sale_err_stock (db : DB) (pf : Bool) (sdate mid bid qS dS : String)
    (q d : Int) (m : Member) (b : Book)
    (h1 : sdate.length = 10) (h2 : countDash sdate = 2)
    (hq : pyInt qS = some q) (hqpos : 0 < q)
    (hd : pyInt dS = some d) (hdnn : 0 ≤ d)
    (hm : findMember db mid = some m)
    (hb : findBook db bid = some b) (hstock : b.bstock < q) :
    add_sale db pf sdate mid bid qS dS = (db, .errStock b.bstock) := by
  unfold add_sale
  dsimp only
  rw [if_neg (not_not_intro ⟨h1, h2⟩), hq]
  dsimp only
  rw [if_neg (show ¬ q ≤ 0 by omega), hd]
  dsimp only
  rw [if_neg (show ¬ d < 0 by omega), hm]
  rw [if_neg (by simp), hb]
  dsimp only
  rw [if_pos hstock]

lemma add_sale_err_persist (db : DB) (sdate mid bid qS dS : String)
    (q d : Int) (m : Member) (b : Book)
    (h1 : sdate.length = 10) (h2 : countDash sdate = 2)
    (hq : pyInt qS = some q) (hqpos : 0 < q)
    (hd : pyInt dS = some d) (hdnn : 0 ≤ d)
    (hm : findMember db mid = some m)
    (hb : findBook db bid = some b) (hstock : q ≤ b.bstock) :
    add_sale db true sdate mid bid qS dS = (db, .errPersist) := by
  unfold add_sale
  dsimp only
  rw [if_neg (not_not_intro ⟨h1, h2⟩), hq]
  dsimp only
  rw [if_neg (show ¬ q ≤ 0 by omega), hd]
  dsimp only
  rw [if_neg (show ¬ d < 0 by omega), hm]
  rw [if_neg (by simp), hb]
  dsimp only
  rw [if_neg (show ¬ b.bstock < q by omega)]
  rw [if_pos rfl]

/-- A database state in which sale 1 references a book id absent from the
catalog.  The schema declares no FOREIGN KEY constraint, so such states are
admissible, and they survive `initialize_db`, whose seeding is
`IF NOT EXISTS` / `INSERT OR IGNORE` on a pre-existing file. -/
def danglingDB : DB where
  members := [⟨"M001", "Alice", "0912-345678", some "alice@example.com"⟩]
  books := []
  sales := [⟨1, "2024-01-15", "M001", "B999", 1, 0, 600⟩]
  nextSid := 2

/-- `seedDB` after a catalog price change for `B001` (600 → 700); the stored
totals of the seeded sales still reflect the original price. -/
def repricedDB : DB :=
  { seedDB with books :=
    [⟨"B001", "Python Programming", 700, 50⟩,
     ⟨"B002", "Data Science Basics", 800, 30⟩,
     ⟨"B003", "Machine Learning Guide", 1200, 20⟩] }

example : pyInt "12" = some 12 := by decide

/-! ### Claim theorems -/

/-- C1: every create that passes all validation persists a Sale whose total
is exactly the referenced book's price times the quantity minus the
discount — the formula is applied verbatim, with no clamp, so a negative
total is stored and accepted as-is. -/
theorem C1_add_sale_total (db db2 : DB) (pf : Bool) (sdate mid bid qS dS : String)
    (t : Int) (h : add_sale db pf sdate mid bid qS dS = (db2, .ok t)) :
    ∃ q d b, pyInt qS = some q ∧ pyInt dS = some d ∧ findBook db bid = some b ∧
      t = b.bprice * q - d ∧
      db2.sales = db.sales ++ [⟨db.nextSid, sdate, mid, bid, q, d, b.bprice * q - d⟩] := by
  obtain ⟨-, -, -, q, d, b, hq, -, hd, -, -, hb, -, ht, hdb⟩ := add_sale_ok_spec h
  subst hdb
  exact ⟨q, d, b, hq, hd, hb, ht, by simp [commitAdd, ht]⟩

/-- Witness for C1 at a create whose discount (1000) exceeds price×quantity
(600·1): the stored and reported total is the negative −400. -/
theorem C1_witness :
    ∃ q d b, pyInt "1" = some q ∧ pyInt "1000" = some d ∧
      findBook seedDB "B001" = some b ∧
      (-400 : Int) = b.bprice * q - d ∧
      (add_sale seedDB false "2024-01-01" "M001" "B001" "1" "1000").1.sales =
        seedDB.sales ++
          [⟨seedDB.nextSid, "2024-01-01", "M001", "B001", q, d, b.bprice * q - d⟩] :=
  C1_add_sale_total seedDB _ false "2024-01-01" "M001" "B001" "1" "1000" (-400)
    (by decide)

/-- C2: the create effect is atomic — on success the Sale row is appended and
the book's stock is decremented together (members untouched); any
non-success run leaves the state untouched; with a persistence failure the
run cannot succeed, and when every validation passes it rolls back to the
prior state with the generic transactional-failure outcome, whose message
differs from every validation-failure message. -/
theorem C2_add_sale_atomic (db : DB) (sdate mid bid qS dS : String) :
    (∀ pf, ((add_sale db pf sdate mid bid qS dS).2).success = false →
      (add_sale db pf sdate mid bid qS dS).1 = db) ∧
    (∀ db2 t, add_sale db false sdate mid bid qS dS = (db2, .ok t) →
      ∃ q d, pyInt qS = some q ∧ pyInt dS = some d ∧
        db2.sales = db.sales ++ [⟨db.nextSid, sdate, mid, bid, q, d, t⟩] ∧
        db2.books = db.books.map (fun b => if b.bid = bid then
          { b with bstock := b.bstock - q } else b) ∧
        db2.members = db.members) ∧
    (∀ t, (add_sale db true sdate mid bid qS dS).2 ≠ .ok t) ∧
    (∀ q d m b, sdate.length = 10 → countDash sdate = 2 →
      pyInt qS = some q → 0 < q → pyInt dS = some d → 0 ≤ d →
      findMember db mid = some m → findBook db bid = some b → q ≤ b.bstock →
      add_sale db true sdate mid bid qS dS = (db, .errPersist)) ∧
    (∀ v : AddOutcome, v.success = false → v ≠ .errPersist →
      (AddOutcome.errPersist).text ≠ v.text) := by
  refine ⟨?_, ?_, ?_, ?_, ?_⟩
  · intro pf hfail
    rcases add_sale_fail_state db pf sdate mid bid qS dS with hsame | ⟨t, hok⟩
    · exact hsame
    · rw [hok] at hfail
      simp [AddOutcome.success] at hfail
  · intro db2 t h
    obtain ⟨-, -, -, q, d, b, hq, -, hd, -, -, -, -, ht, hdb⟩ := add_sale_ok_spec h
    subst hdb
    exact ⟨q, d, hq, hd, rfl, rfl, rfl⟩
  · intro t h
    have hpair : add_sale db true sdate mid bid qS dS =
        ((add_sale db true sdate mid bid qS dS).1, .ok t) := by
      rw [← h]
    obtain ⟨-, -, hpf, -⟩ := add_sale_ok_spec hpair
    simp at hpf
  · intro q d m b h1 h2 hq hqpos hd hdnn hm hb hstock
    exact add_sale_err_persist db sdate mid bid qS dS q d m b h1 h2 hq hqpos hd hdnn
      hm hb hstock
  · intro v hv hne
    cases v with
    | errStock s => exact (errStock_text_ne s _ (by decide)).symm
    | ok s => simp [AddOutcome.success] at hv
    | errPersist => exact absurd rfl hne
    | errDate => decide
    | errQtyNotPos => decide
    | errQtyNotInt => decide
    | errDiscNeg => decide
    | errDiscNotInt => decide
    | errNoMember => decide
    | errNoBook => decide

/-- Witness for C2: a fully valid create run against the seed data with a
persistence failure returns the generic rollback outcome and the untouched
prior state. -/
theorem C2_witness :
    add_sale seedDB true "2024-01-01" "M001" "B001" "2" "100" =
      (seedDB, .errPersist) := by
  have h := (C2_add_sale_atomic seedDB "2024-01-01" "M001" "B001" "2" "100").2.2.2.1
  exact h 2 100 ⟨"M001", "Alice", "0912-345678", some "alice@example.com"⟩
    ⟨"B001", "Python Programming", 600, 50⟩ (by decide) (by decide) (by decide)
    (by decide) (by decide) (by decide) (by decide) (by decide) (by decide)

/-- C3: from any state whose stocks are all non-negative (with the book
primary-key constraint the schema enforces), create, update and delete each
leave every book's stock non-negative — create decrements only after the
stock check, update and delete never write stock. -/
theorem C3_stock_nonneg_preserved (db : DB) (hnn : stocksNonneg db)
    (hnd : (db.books.map Book.bid).Nodup)
    (pf : Bool) (sdate mid bid qS dS updChoice updD delChoice : String) :
    stocksNonneg (add_sale db pf sdate mid bid qS dS).1 ∧
    stocksNonneg (update_sale db updChoice updD).1 ∧
    stocksNonneg (delete_sale db delChoice).1 :=
  ⟨add_sale_stocksNonneg hnn hnd pf sdate mid bid qS dS,
   update_sale_stocksNonneg hnn updChoice updD,
   delete_sale_stocksNonneg hnn delChoice⟩

/-- Witness for C3 at the seed state with one concrete run of each
operation. -/
theorem C3_witness :
    stocksNonneg seedDB ∧
    (stocksNonneg (add_sale seedDB false "2024-01-01" "M001" "B001" "2" "0").1 ∧
     stocksNonneg (update_sale seedDB "1" "50").1 ∧
     stocksNonneg (delete_sale seedDB "2").1) :=
  ⟨by decide,
   C3_stock_nonneg_preserved seedDB (by decide) (by decide) false
     "2024-01-01" "M001" "B001" "2" "0" "1" "50" "2"⟩

/-- C4: when every earlier validation passes but the quantity exceeds the
resolved book's stock, the create fails, the state is unchanged, and the
failure outcome carries the book's current stock level (which its message
text reports verbatim). -/
theorem C4_insufficient_stock (db : DB) (pf : Bool) (sdate mid bid qS dS : String)
    (q d : Int) (m : Member) (b : Book)
    (h1 : sdate.length = 10) (h2 : countDash sdate = 2)
    (hq : pyInt qS = some q) (hqpos : 0 < q)
    (hd : pyInt dS = some d) (hdnn : 0 ≤ d)
    (hm : findMember db mid = some m)
    (hb : findBook db bid = some b) (hstock : b.bstock < q) :
    add_sale db pf sdate mid bid qS dS = (db, .errStock b.bstock) ∧
    (AddOutcome.errStock b.bstock).text =
      "=> 錯誤：庫存不足 (現有庫存: " ++ (toString b.bstock ++ ")") :=
  ⟨add_sale_err_stock db pf sdate mid bid qS dS q d m b h1 h2 hq hqpos hd hdnn
     hm hb hstock, rfl⟩

/-- Witness for C4: asking for 100 copies of B001 (stock 50) fails with the
stock-level-50 outcome and the seed state intact. -/
theorem C4_witness :
    add_sale seedDB false "2024-01-01" "M001" "B001" "100" "0" =
      (seedDB, .errStock 50) ∧
    (AddOutcome.errStock 50).text =
      "=> 錯誤：庫存不足 (現有庫存: " ++ (toString (50 : Int) ++ ")") :=
  C4_insufficient_stock seedDB false "2024-01-01" "M001" "B001" "100" "0" 100 0
    ⟨"M001", "Alice", "0912-345678", some "alice@example.com"⟩
    ⟨"B001", "Python Programming", 600, 50⟩ (by decide) (by decide) (by decide)
    (by decide) (by decide) (by decide) (by decide) (by decide) (by decide)

/-- C5 counterexample: the claim predicts that an unknown member id combined
with a non-positive quantity reports the unknown-member failure; the code
parses and checks the quantity first and reports the quantity failure. -/
theorem C5_counterexample :
    findMember seedDB "M999" = none ∧
    add_sale seedDB false "2024-01-01" "M999" "B001" "0" "0" =
      (seedDB, .errQtyNotPos) ∧
    AddOutcome.errQtyNotPos ≠ AddOutcome.errNoMember := by
  refine ⟨by decide, by decide, by decide⟩

/-- C5 (amended): create validates in the order (1) date shape, (2) quantity
parses to a strictly positive integer, (3) discount parses to a non-negative
integer, (4) member id exists, (5) book id exists, (6) sufficient stock;
each check yields a distinct failure outcome with a distinct message, every
failure aborts before any mutation, and for an input failing several checks
the reported failure is the earliest in this order. -/
theorem C5_validation_order (db : DB) (pf : Bool) (sdate mid bid qS dS : String) :
    (¬ (sdate.length = 10 ∧ countDash sdate = 2) →
      add_sale db pf sdate mid bid qS dS = (db, .errDate)) ∧
    (sdate.length = 10 → countDash sdate = 2 →
      pyInt qS = none → add_sale db pf sdate mid bid qS dS = (db, .errQtyNotInt)) ∧
    (∀ q, sdate.length = 10 → countDash sdate = 2 →
      pyInt qS = some q → q ≤ 0 →
      add_sale db pf sdate mid bid qS dS = (db, .errQtyNotPos)) ∧
    (∀ q, sdate.length = 10 → countDash sdate = 2 →
      pyInt qS = some q → 0 < q → pyInt dS = none →
      add_sale db pf sdate mid bid qS dS = (db, .errDiscNotInt)) ∧
    (∀ q d, sdate.length = 10 → countDash sdate = 2 →
      pyInt qS = some q → 0 < q → pyInt dS = some d → d < 0 →
      add_sale db pf sdate mid bid qS dS = (db, .errDiscNeg)) ∧
    (∀ q d, sdate.length = 10 → countDash sdate = 2 →
      pyInt qS = some q → 0 < q → pyInt dS = some d → 0 ≤ d →
      findMember db mid = none →
      add_sale db pf sdate mid bid qS dS = (db, .errNoMember)) ∧
    (∀ q d m, sdate.length = 10 → countDash sdate = 2 →
      pyInt qS = some q → 0 < q → pyInt dS = some d → 0 ≤ d →
      findMember db mid = some m → findBook db bid = none →
      add_sale db pf sdate mid bid qS dS = (db, .errNoBook)) ∧
    (∀ q d m b, sdate.length = 10 → countDash sdate = 2 →
      pyInt qS = some q → 0 < q → pyInt dS = some d → 0 ≤ d →
      findMember db mid = some m → findBook db bid = some b → b.bstock < q →
      add_sale db pf sdate mid bid qS dS = (db, .errStock b.bstock)) ∧
    (((add_sale db pf sdate mid bid qS dS).2).success = false →
      (add_sale db pf sdate mid bid qS dS).1 = db) ∧
    List.Pairwise (fun x y => x ≠ y)
      [AddOutcome.errDate.text, AddOutcome.errQtyNotInt.text,
       AddOutcome.errQtyNotPos.text, AddOutcome.errDiscNotInt.text,
       AddOutcome.errDiscNeg.text, AddOutcome.errNoMember.text,
       AddOutcome.errNoBook.text] ∧
    (∀ s x, x ∈ [AddOutcome.errDate.text, AddOutcome.errQtyNotInt.text,
       AddOutcome.errQtyNotPos.text, AddOutcome.errDiscNotInt.text,
       AddOutcome.errDiscNeg.text, AddOutcome.errNoMember.text,
       AddOutcome.errNoBook.text] → (AddOutcome.errStock s).text ≠ x) := by
  refine ⟨?_, ?_, ?_, ?_, ?_, ?_, ?_, ?_, ?_, ?_, ?_⟩
  · exact add_sale_err_date db pf sdate mid bid qS dS
  · intro h1 h2 hq
    exact add_sale_err_qty_int db pf sdate mid bid qS dS h1 h2 hq
  · intro q h1 h2 hq hle
    exact add_sale_err_qty_pos db pf sdate mid bid qS dS q h1 h2 hq hle
  · intro q h1 h2 hq hqpos hd
    exact add_sale_err_disc_int db pf sdate mid bid qS dS q h1 h2 hq hqpos hd
  · intro q d h1 h2 hq hqpos hd hdneg
    exact add_sale_err_disc_neg db pf sdate mid bid qS dS q d h1 h2 hq hqpos hd hdneg
  · intro q d h1 h2 hq hqpos hd hdnn hm
    exact add_sale_err_member db pf sdate mid bid qS dS q d h1 h2 hq hqpos hd hdnn hm
  · intro q d m h1 h2 hq hqpos hd hdnn hm hb
    exact add_sale_err_book db pf sdate mid bid qS dS q d m h1 h2 hq hqpos hd hdnn hm hb
  · intro q d m b h1 h2 hq hqpos hd hdnn hm hb hstock
    exact add_sale_err_stock db pf sdate mid bid qS dS q d m b h1 h2 hq hqpos hd hdnn
      hm hb hstock
  · intro hfail
    rcases add_sale_fail_state db pf sdate mid bid qS dS with hsame | ⟨t, hok⟩
    · exact hsame
    · rw [hok] at hfail
      simp [AddOutcome.success] at hfail
  · decide
  · intro s x hx
    fin_cases hx <;> exact errStock_text_ne s _ (by decide)

/-- Witness for C5 (amended): with a valid date and positive quantity, an
unknown member id is the earliest failing check and is the one reported. -/
theorem C5_witness :
    add_sale seedDB false "2024-01-01" "M999" "B001" "1" "0" =
      (seedDB, .errNoMember) := by
  have h := (C5_validation_order seedDB false "2024-01-01" "M999" "B001" "1" "0").2.2.2.2.2.1
  exact h 1 0 (by decide) (by decide) (by decide) (by decide) (by decide) (by decide)
    (by decide)


example : pyInt " -3 " = some (-3) := by decide
example : pyInt "+0" = some 0 := by decide
example : pyInt "" = none := by decide
example : pyInt "1a" = none := by decide
example : countDash "2024-01-01" = 2 := by decide
example :
    (add_sale seedDB false "2024-01-01" "M001" "B001" "2" "100").2 = .ok 1100 := by decide
example :
    (add_sale seedDB false "2024-01-01" "M001" "B001" "1" "1000").2 = .ok (-400) := by decide
example : (update_sale seedDB "1" "50").2 = .ok 1 1150 := by decide
example : (update_sale seedDB " " "0").2 = .cancel := by decide
example : (update_sale seedDB "5" "0").2 = .errRange := by decide
example : (update_sale seedDB "abc" "0").2 = .errNotNum := by decide
example : (update_sale repricedDB "1" "50").2 = .ok 1 1350 := by decide
example : (delete_sale seedDB "2").2 = .ok 2 := by decide
example : (delete_sale seedDB "2").1.sales.length = 3 := by decide
example : (delete_sale seedDB "0").2 = .errRange := by decide
example : (update_sale danglingDB "1" "0").2 = .raised .typeError := by decide
example : runMenu danglingDB [.update "1" "0"] = .crashed .typeError danglingDB := by decide
example : salesBooksExist seedDB := by decide
example : stocksNonneg seedDB := by decide

/-- C6: a valid discount update recomputes the total as the referenced
book's current price (re-read at update time) times the sale's stored
quantity minus the new discount; only the selected sale's `sdiscount` and
`stotal` fields are written (its quantity, member and book references ride
along unchanged in the record update), all other sale rows are untouched,
and no book (hence no stock) or member is changed. -/
theorem C6_update_recompute (db db2 : DB) (choice dS : String) (sid : Nat) (t : Int)
    (h : update_sale db choice dS = (db2, .ok sid t)) :
    ∃ srow bk d, findSale db sid = some srow ∧ findBook db srow.bid = some bk ∧
      pyInt dS = some d ∧ 0 ≤ d ∧
      t = bk.bprice * srow.sqty - d ∧
      db2.sales = db.sales.map (fun u => if u.sid = sid then
        { u with sdiscount := d, stotal := t } else u) ∧
      db2.books = db.books ∧ db2.members = db.members ∧ db2.nextSid = db.nextSid := by
  obtain ⟨c, sel, srow, bk, d, hc, hcpos, hsel, hsid, hd, hdnn, hsrow, hbk, ht, hdb⟩ :=
    update_sale_ok_spec h
  subst hdb hsid
  exact ⟨srow, bk, d, hsrow, hbk, hd, hdnn, ht, rfl, rfl, rfl, rfl⟩

/-- Witness for C6 against `repricedDB`, where B001 now costs 700 while sale
1 (quantity 2) was recorded at the old price 600: the update to discount 50
yields 700·2 − 50 = 1350, not 600·2 − 50 = 1150 — the price is re-read. -/
theorem C6_witness :
    ∃ srow bk d, findSale repricedDB 1 = some srow ∧
      findBook repricedDB srow.bid = some bk ∧ pyInt "50" = some d ∧ 0 ≤ d ∧
      (1350 : Int) = bk.bprice * srow.sqty - d ∧
      (update_sale repricedDB "1" "50").1.sales =
        repricedDB.sales.map (fun u => if u.sid = 1 then
          { u with sdiscount := d, stotal := (1350 : Int) } else u) ∧
      (update_sale repricedDB "1" "50").1.books = repricedDB.books ∧
      (update_sale repricedDB "1" "50").1.members = repricedDB.members ∧
      (update_sale repricedDB "1" "50").1.nextSid = repricedDB.nextSid :=
  C6_update_recompute repricedDB _ "1" "50" 1 1350 (by decide)

/-- C7: a valid delete removes exactly the selected sale row: books (hence
every stock figure) and members are untouched, every sale row with another
identifier survives, the selected row is gone, and under the `sid`
primary-key constraint the ledger shrinks by exactly one row.  No stock
restoration happens. -/
theorem C7_delete_exact (db db2 : DB) (choice : String) (sid : Nat)
    (hnd : (db.sales.map Sale.sid).Nodup)
    (h : delete_sale db choice = (db2, .ok sid)) :
    db2.books = db.books ∧ db2.members = db.members ∧
    ∃ sel, sel ∈ db.sales ∧ sel.sid = sid ∧
      db2.sales = db.sales.filter (fun u => ¬ u.sid = sel.sid) ∧
      sel ∉ db2.sales ∧ (∀ u ∈ db.sales, u.sid ≠ sid → u ∈ db2.sales) ∧
      db.sales.length = db2.sales.length + 1 := by
  obtain ⟨c, sel, hc, hcpos, hsel, hsid, hdb⟩ := delete_sale_ok_spec h
  subst hdb hsid
  have hselmem : sel ∈ db.sales := (mem_saleListing (List.get?_mem hsel)).1
  refine ⟨rfl, rfl, sel, hselmem, rfl, rfl, ?_, ?_, ?_⟩
  · intro hmem
    have := List.of_mem_filter hmem
    simp at this
  · intro u hu hne
    exact List.mem_filter.mpr ⟨hu, by simpa using hne⟩
  · have hsplit := length_filter_sid_split sel db.sales
    rw [filter_sid_singleton hnd hselmem] at hsplit
    simp only [List.length_singleton] at hsplit
    dsimp only
    omega

/-- Witness for C7: deleting listing position 2 of the seed data removes
sale 2 alone. -/
theorem C7_witness :
    (delete_sale seedDB "2").1.books = seedDB.books ∧
    (delete_sale seedDB "2").1.members = seedDB.members ∧
    ∃ sel, sel ∈ seedDB.sales ∧ sel.sid = 2 ∧
      (delete_sale seedDB "2").1.sales =
        seedDB.sales.filter (fun u => ¬ u.sid = sel.sid) ∧
      sel ∉ (delete_sale seedDB "2").1.sales ∧
      (∀ u ∈ seedDB.sales, u.sid ≠ 2 → u ∈ (delete_sale seedDB "2").1.sales) ∧
      seedDB.sales.length = (delete_sale seedDB "2").1.sales.length + 1 :=
  C7_delete_exact seedDB _ "2" 2 (by decide) (by decide)

/-- C8: shared selection behaviour of update and delete — the listing is
sorted by ascending sale identifier and is a permutation of the sales whose
member resolves; an empty listing reports nothing-to-operate-on before any
selection; blank input cancels with no effect; non-integer input and
out-of-range integers fail with no mutation; an integer c with
1 ≤ c ≤ length selects the sale at 1-based position c of the listing. -/
theorem C8_selection (db : DB) (choice dS : String) :
    List.Pairwise (fun a b : Sale => a.sid ≤ b.sid) (saleListing db) ∧
    List.Perm (saleListing db)
      (db.sales.filter (fun s => (findMember db s.mid).isSome)) ∧
    (saleListing db = [] →
      update_sale db choice dS = (db, .noSales) ∧
      delete_sale db choice = (db, .noSales)) ∧
    (saleListing db ≠ [] → stripWs choice.toList = [] →
      update_sale db choice dS = (db, .cancel) ∧
      delete_sale db choice = (db, .cancel)) ∧
    (saleListing db ≠ [] → stripWs choice.toList ≠ [] → pyInt choice = none →
      update_sale db choice dS = (db, .errNotNum) ∧
      delete_sale db choice = (db, .errNotNum)) ∧
    (∀ c, saleListing db ≠ [] → stripWs choice.toList ≠ [] → pyInt choice = some c →
      (c < 1 ∨ ((saleListing db).length : Int) < c) →
      update_sale db choice dS = (db, .errRange) ∧
      delete_sale db choice = (db, .errRange)) ∧
    (∀ c, stripWs choice.toList ≠ [] → pyInt choice = some c →
      1 ≤ c → c ≤ ((saleListing db).length : Int) →
      ∃ sel, (saleListing db).get? (c - 1).toNat = some sel ∧
        delete_sale db choice =
          ({ db with sales := db.sales.filter (fun u => ¬ u.sid = sel.sid) },
            .ok sel.sid) ∧
        (∀ sid t, (update_sale db choice dS).2 = .ok sid t → sid = sel.sid)) := by
  refine ⟨sorted_sortBySid _, perm_sortBySid _, ?_, ?_, ?_, ?_, ?_⟩
  · intro hE
    constructor
    · unfold update_sale
      dsimp only
      rw [if_pos hE]
    · unfold delete_sale
      dsimp only
      rw [if_pos hE]
  · intro hE hB
    constructor
    · unfold update_sale
      dsimp only
      rw [if_neg hE, if_pos hB]
    · unfold delete_sale
      dsimp only
      rw [if_neg hE, if_pos hB]
  · intro hE hB hc
    constructor
    · unfold update_sale
      dsimp only
      rw [if_neg hE, if_neg hB, hc]
    · unfold delete_sale
      dsimp only
      rw [if_neg hE, if_neg hB, hc]
  · intro c hE hB hc hout
    have hcase : c - 1 < 0 ∨ (¬ c - 1 < 0 ∧
        (saleListing db).get? (c - 1).toNat = none) := by
      rcases hout with hlt | hgt
      · left; omega
      · by_cases hneg : c - 1 < 0
        · left; exact hneg
        · right
          refine ⟨hneg, List.get?_eq_none.mpr ?_⟩
          omega
    constructor
    · unfold update_sale
      dsimp only
      rw [if_neg hE, if_neg hB, hc]
      dsimp only
      rcases hcase with hneg | ⟨hnneg, hnone⟩
      · rw [if_pos hneg]
      · rw [if_neg hnneg, hnone]
    · unfold delete_sale
      dsimp only
      rw [if_neg hE, if_neg hB, hc]
      dsimp only
      rcases hcase with hneg | ⟨hnneg, hnone⟩
      · rw [if_pos hneg]
      · rw [if_neg hnneg, hnone]
  · intro c hB hc hc1 hc2
    have hlt : (c - 1).toNat < (saleListing db).length := by omega
    obtain ⟨sel, hsel⟩ : ∃ sel, (saleListing db).get? (c - 1).toNat = some sel :=
      ⟨_, List.get?_eq_get hlt⟩
    have hE : saleListing db ≠ [] := by
      intro h0
      rw [h0] at hlt
      simp at hlt
    refine ⟨sel, hsel, ?_, ?_⟩
    · unfold delete_sale
      dsimp only
      rw [if_neg hE, if_neg hB, hc]
      dsimp only
      rw [if_neg (show ¬ c - 1 < 0 by omega), hsel]
    · intro sid t h2
      have hpair : update_sale db choice dS =
          ((update_sale db choice dS).1, .ok sid t) := by
        rw [← h2]
      obtain ⟨c2, sel2, srow, bk, d, hc2, -, hsel2, hsid, -, -, -, -, -, -⟩ :=
        update_sale_ok_spec hpair
      rw [hc] at hc2
      obtain rfl : c = c2 := Option.some_inj.mp hc2
      rw [hsel] at hsel2
      obtain rfl : sel = sel2 := Option.some_inj.mp hsel2
      exact hsid

/-- Witness for C8 at the seed data with selection "3": position 3 of the
listing is sale 3 and both operations target it. -/
theorem C8_witness :
    ∃ sel, (saleListing seedDB).get? ((3 : Int) - 1).toNat = some sel ∧
      delete_sale seedDB "3" =
        ({ seedDB with sales := seedDB.sales.filter (fun u => ¬ u.sid = sel.sid) },
          .ok sel.sid) ∧
      (∀ sid t, (update_sale seedDB "3" "0").2 = .ok sid t → sid = sel.sid) := by
  have h := (C8_selection seedDB "3" "0").2.2.2.2.2.2
  exact h 3 (by decide) (by decide) (by decide) (by decide)

/-- C9 counterexample: updating a sale whose book id is absent from the
catalog (a state the FK-less schema admits and `initialize_db` preserves)
raises a TypeError that neither `update_sale` nor the menu loop's handlers
catch, so the process terminates without the exit choice — refuting the
claim that every operation catches unanticipated errors at its top level. -/
theorem C9_counterexample :
    (update_sale danglingDB "1" "0").2 = .raised .typeError ∧
    loopCatches .typeError = false ∧
    runMenu danglingDB [MenuInput.update "1" "0"] =
      .crashed .typeError danglingDB := by
  refine ⟨by decide, by decide, by decide⟩

/-- C9 (amended): only `add_sale` has a top-level catch-all; update, delete
and report rely on the menu loop, which catches only ValueError and the
sqlite error classes, so the claim holds only on states satisfying the
sale→book referential invariant (true of the seed data and preserved by
every operation): from such a state no input sequence crashes the process,
and the loop ends only through the explicit exit choice. -/
theorem C9_no_crash_under_invariant (db : DB) (hinv : salesBooksExist db)
    (evs : List MenuInput) :
    (∀ e db2, runMenu db evs ≠ .crashed e db2) ∧
    (∀ db2, runMenu db evs = .exited db2 → MenuInput.exit ∈ evs) :=
  runMenu_safe evs db hinv

/-- Witness for C9 (amended) on the seed state and a concrete session. -/
theorem C9_witness :
    salesBooksExist seedDB ∧
    runMenu seedDB [MenuInput.update "1" "50", MenuInput.exit] ≠
      .crashed .typeError seedDB ∧
    (runMenu seedDB [MenuInput.update "1" "50", MenuInput.exit] =
        .exited (update_sale seedDB "1" "50").1 →
      MenuInput.exit ∈ [MenuInput.update "1" "50", MenuInput.exit]) := by
  have h := C9_no_crash_under_invariant seedDB (by decide)
    [MenuInput.update "1" "50", MenuInput.exit]
  exact ⟨by decide, h.1 .typeError seedDB, h.2 _⟩

/-- C10: the update path applies no clamp either — the committed total is
the raw `price * quantity - discount`, so whenever the new discount exceeds
the book's current price times the stored quantity, the negative total is
stored on the selected row. -/
theorem C10_update_no_clamp (db db2 : DB) (choice dS : String) (sid : Nat) (t : Int)
    (h : update_sale db choice dS = (db2, .ok sid t)) :
    ∃ srow bk d, findSale db sid = some srow ∧ findBook db srow.bid = some bk ∧
      pyInt dS = some d ∧ t = bk.bprice * srow.sqty - d ∧
      (bk.bprice * srow.sqty < d → t < 0) ∧
      (∀ u ∈ db2.sales, u.sid = sid → u.stotal = t) ∧
      (∃ u ∈ db2.sales, u.sid = sid) := by
  obtain ⟨c, sel, srow, bk, d, hc, hcpos, hsel, hsid, hd, hdnn, hsrow, hbk, ht, hdb⟩ :=
    update_sale_ok_spec h
  subst hdb hsid
  refine ⟨srow, bk, d, hsrow, hbk, hd, ht, by omega, ?_, ?_⟩
  · intro u hu hus
    obtain ⟨v, hv, rfl⟩ := List.mem_map.mp hu
    by_cases hveq : v.sid = sel.sid
    · rw [if_pos hveq]
    · rw [if_neg hveq] at hus
      exact absurd hus hveq
  · have hselmem : sel ∈ db.sales := (mem_saleListing (List.get?_mem hsel)).1
    refine ⟨_, List.mem_map_of_mem _ hselmem, ?_⟩
    rw [if_pos rfl]

/-- Witness for C10: raising sale 1's discount to 2000 against price 600 and
quantity 2 commits the negative total −800. -/
theorem C10_witness :
    ∃ srow bk d, findSale seedDB 1 = some srow ∧
      findBook seedDB srow.bid = some bk ∧
      pyInt "2000" = some d ∧ (-800 : Int) = bk.bprice * srow.sqty - d ∧
      (bk.bprice * srow.sqty < d → (-800 : Int) < 0) ∧
      (∀ u ∈ (update_sale seedDB "1" "2000").1.sales, u.sid = 1 → u.stotal = -800) ∧
      (∃ u ∈ (update_sale seedDB "1" "2000").1.sales, u.sid = 1) :=
  C10_update_no_clamp seedDB _ "1" "2000" 1 (-800) (by decide)


end Bookstore
